import Mathlib

/-!
Verification of the VOICE2EYE emergency-alert core against its specification.

The definitions below are a shallow embedding of the Python sources
`backend/emergency/emergency_triggers.py`, `backend/emergency/location_services.py`
and `backend/emergency/message_sender.py`.  Python strings are modelled as
`List Char`, floats and wall-clock timestamps as `ℚ`, and the confirmation
polling thread as a fuelled recursion over poll ticks.  External effects
(wall clock, IP providers, the Twilio gateway, user callbacks) are passed in
as explicit parameters.
-/

/-! ## Python string primitives used by the sources -/

/-- Python `pat in s` (substring containment), scanning left to right. -/
def containsSub (pat : List Char) : List Char → Bool
  | [] => pat.isEmpty
  | c :: t => pat.isPrefixOf (c :: t) || containsSub pat t

/-- Python `s.lower()` (ASCII case mapping, as used on the keyword texts). -/
def pyLower (s : List Char) : List Char := s.map Char.toLower

/-- Python `s.strip()`: drop leading and trailing whitespace. -/
def pyStrip (s : List Char) : List Char :=
  ((s.dropWhile Char.isWhitespace).reverse.dropWhile Char.isWhitespace).reverse

/-! ## `emergency_triggers.py`: the trigger system -/

/-- `EmergencyType` enum from `emergency_triggers.py`. -/
inductive EmergencyType
  | voice
  | gesture
  | manual
  | timeout
  deriving DecidableEq

/-- The mutable fields of `EmergencyTriggerSystem` that the trigger and
confirm/cancel operations read and write. -/
structure TriggerState where
  is_active : Bool
  emergency_start_time : Option ℚ
  emergency_confirmed : Bool
  emergency_cancelled : Bool
  deriving DecidableEq

/-- The `__init__` values of the mutable trigger fields. -/
def initTriggerState : TriggerState :=
  { is_active := false
    emergency_start_time := none
    emergency_confirmed := false
    emergency_cancelled := false }

/-- `self.emergency_keywords` from `EmergencyTriggerSystem.__init__`. -/
def emergency_keywords : List (List Char) :=
  ["help".toList, "emergency".toList, "sos".toList,
   "assist".toList, "urgent".toList, "danger".toList]

/-- `EmergencyTriggerSystem._handle_emergency_trigger`.  Returns the new
state together with whether the confirmation process was started (i.e. the
guard `if self.is_active` did not fire; only then is
`_start_emergency_confirmation` reached, which invokes the emergency
callback and spawns the confirmation thread). -/
def handle_emergency_trigger (s : TriggerState) (now : ℚ) : TriggerState × Bool :=
  if s.is_active then (s, false)
  else
    ({ is_active := true
       emergency_start_time := some now
       emergency_confirmed := false
       emergency_cancelled := false }, true)

/-- The `for keyword in self.emergency_keywords` loop of
`trigger_voice_emergency`: on the first keyword contained in `text_lower`
it handles the trigger and returns `True`; after the loop it returns
`False`.  Result: `(return value, new state, confirmation started)`. -/
def voiceKeywordLoop (s : TriggerState) (now : ℚ) (text_lower : List Char) :
    List (List Char) → Bool × TriggerState × Bool
  | [] => (false, s, false)
  | kw :: rest =>
    if containsSub kw text_lower then
      let p := handle_emergency_trigger s now
      (true, p.1, p.2)
    else voiceKeywordLoop s now text_lower rest

/-- `EmergencyTriggerSystem.trigger_voice_emergency(text, confidence)`.
The `confidence` argument is only interpolated into log lines. -/
def trigger_voice_emergency (s : TriggerState) (text : List Char) (_confidence : ℚ)
    (now : ℚ) : Bool × TriggerState × Bool :=
  voiceKeywordLoop s now (pyStrip (pyLower text)) emergency_keywords

/-- Model of the `gesture_data` dict consumed by `trigger_gesture_emergency`:
`gesture_data.get('gesture_type')` and `gesture_data.get('confidence', 0.0)`. -/
structure GestureData where
  gesture_type : Option String
  confidence : ℚ
  deriving DecidableEq

/-- `EmergencyTriggerSystem.trigger_gesture_emergency(gesture_data)`. -/
def trigger_gesture_emergency (s : TriggerState) (g : GestureData) (now : ℚ) :
    Bool × TriggerState × Bool :=
  if g.gesture_type = some "two_fingers" then
    let p := handle_emergency_trigger s now
    (true, p.1, p.2)
  else (false, s, false)

/-- `EmergencyTriggerSystem.trigger_manual_emergency()`. -/
def trigger_manual_emergency (s : TriggerState) (now : ℚ) : Bool × TriggerState × Bool :=
  let p := handle_emergency_trigger s now
  (true, p.1, p.2)

/-- `EmergencyTriggerSystem.confirm_emergency`. -/
def confirm_emergency (s : TriggerState) : TriggerState :=
  if s.is_active && !s.emergency_confirmed then { s with emergency_confirmed := true } else s

/-- `EmergencyTriggerSystem.cancel_emergency`. -/
def cancel_emergency (s : TriggerState) : TriggerState :=
  if s.is_active && !s.emergency_cancelled then { s with emergency_cancelled := true } else s

/-- `EmergencyTriggerSystem._reset_emergency_state`. -/
def reset_emergency_state (_s : TriggerState) : TriggerState :=
  { is_active := false
    emergency_start_time := none
    emergency_confirmed := false
    emergency_cancelled := false }

/-! ## The confirmation polling loop

`_emergency_confirmation_loop` polls `self.emergency_confirmed` /
`self.emergency_cancelled` every 100 ms until one of them is set or the
elapsed time reaches `confirmation_timeout` (10 s).  We model the loop over
abstract poll ticks: `conf k` / `canc k` are the flag values the loop
observes at tick `k`, and the elapsed-time test `elapsed >= timeout` is
`T ≤ k` for the tick bound `T`.  (`self.stop_event` is never `set()`
anywhere in the repository, so the `while not self.stop_event.is_set()`
condition is always true and the loop exits only through its `break`s.) -/

/-- Which of the three resolution callbacks fires, named after the branch of
the loop body that breaks. -/
inductive Resolution
  | confirmedRes
  | cancelledRes
  | timeoutRes
  deriving DecidableEq

/-- The branch the loop body takes when it resolves at tick `k`: the
`emergency_confirmed` check comes first, then `emergency_cancelled`, then
the timeout test. -/
def loopResolveAt (conf canc : ℕ → Bool) (k : ℕ) : Resolution :=
  if conf k then Resolution.confirmedRes
  else if canc k then Resolution.cancelledRes
  else Resolution.timeoutRes

/-- One poll tick of the loop body resolves iff a flag is set or the
timeout has elapsed. -/
def loopHit (conf canc : ℕ → Bool) (T k : ℕ) : Bool :=
  conf k || canc k || decide (T ≤ k)

/-- The polling loop of `_emergency_confirmation_loop`, fuelled: at tick `k`
it breaks with the confirmation branch if `conf k`, with the cancellation
branch if `canc k`, with the timeout branch if `T ≤ k`, and otherwise
sleeps and polls tick `k+1`. -/
def confirmationLoopAux (conf canc : ℕ → Bool) (T : ℕ) : ℕ → ℕ → Option Resolution
  | 0, _ => none
  | fuel + 1, k =>
    if conf k then some Resolution.confirmedRes
    else if canc k then some Resolution.cancelledRes
    else if T ≤ k then some Resolution.timeoutRes
    else confirmationLoopAux conf canc T fuel (k + 1)

/-- `_emergency_confirmation_loop`, started at tick 0. -/
def emergency_confirmation_loop (conf canc : ℕ → Bool) (T fuel : ℕ) : Option Resolution :=
  confirmationLoopAux conf canc T fuel 0

/-- The whole `_emergency_confirmation_loop` body including its
`try/except/finally`: the loop fires the resolution callback of the branch
it breaks on; `cbRaises r` says whether that callback raises (the exception
is caught by the `except` clause); the `finally` clause always runs
`_reset_emergency_state`.  Result: `(resolution, exception caught, final
state)`. -/
def emergency_confirmation_loop_run (s : TriggerState) (conf canc : ℕ → Bool)
    (T fuel : ℕ) (cbRaises : Resolution → Bool) :
    Option Resolution × Bool × TriggerState :=
  match emergency_confirmation_loop conf canc T fuel with
  | none => (none, false, reset_emergency_state s)
  | some r => (some r, cbRaises r, reset_emergency_state s)

/-! ## `location_services.py`: the location service -/

/-- The `LocationData` dataclass. -/
structure LocationData where
  latitude : ℚ
  longitude : ℚ
  address : String
  city : String
  country : String
  accuracy : ℚ
  timestamp : ℚ
  source : String
  deriving DecidableEq

/-- `self.cache_duration` (seconds) from `LocationService.__init__`. -/
def cache_duration : ℚ := 3600

/-- `LocationService._is_cache_valid`: the cached entry is valid while its
age `now - timestamp` is strictly below the one-hour TTL. -/
def is_cache_valid (now : ℚ) (loc : LocationData) : Bool :=
  decide (now - loc.timestamp < cache_duration)

/-- `LocationService.get_current_location`.  `cached` is what
`_get_cached_location()` read from the cache file and `ip_location` what
`_get_ip_location()` obtained from the provider chain (`none` when every
provider failed).  Result: `(returned location, whether the provider chain
was queried, cache file contents afterwards)` — `_cache_location` is called
exactly on a successful provider lookup. -/
def get_current_location (now : ℚ) (cached ip_location : Option LocationData) :
    Option LocationData × Bool × Option LocationData :=
  match cached with
  | some c =>
    if is_cache_valid now c then (some c, false, some c)
    else
      match ip_location with
      | some l => (some l, true, some l)
      | none => (none, true, some c)
  | none =>
    match ip_location with
    | some l => (some l, true, some l)
    | none => (none, true, none)

/-- Model of the JSON dict returned by the `ipapi.co` provider, with the
fields `_parse_ip_response` reads; a missing field makes the Python
`data.get(key, default)` fall back to its default. -/
structure IpapiResponse where
  latitude : Option ℚ
  longitude : Option ℚ
  ip : Option String
  city : Option String
  country_name : Option String
  deriving DecidableEq

/-- The `ipapi.co` branch of `LocationService._parse_ip_response`:
`float(data.get("latitude", 0))` etc., fixed accuracy 0.8, source "ip". -/
def parse_ip_response_ipapi (now : ℚ) (d : IpapiResponse) : LocationData :=
  { latitude := d.latitude.getD 0
    longitude := d.longitude.getD 0
    address := d.ip.getD ""
    city := d.city.getD ""
    country := d.country_name.getD ""
    accuracy := (8 : ℚ) / 10
    timestamp := now
    source := "ip" }

/-- `LocationService.validate_location_accuracy`: coordinate bounds, the
not-`(0,0)` check, and the accuracy threshold 0.5. -/
def validate_location_accuracy (loc : LocationData) : Bool :=
  if ¬(-90 ≤ loc.latitude ∧ loc.latitude ≤ 90) then false
  else if ¬(-180 ≤ loc.longitude ∧ loc.longitude ≤ 180) then false
  else if loc.latitude = 0 ∧ loc.longitude = 0 then false
  else if loc.accuracy < (1 : ℚ) / 2 then false
  else true

/-! ## `message_sender.py`: the message dispatcher -/

/-- The `Contact` dataclass. -/
structure Contact where
  name : String
  phone : String
  relationship : String
  priority : ℤ
  enabled : Bool
  deriving DecidableEq

/-- The `MessageTemplate` dataclass; the body is kept as a character list
because rendering rewrites it. -/
structure MessageTemplate where
  template_id : String
  subject : String
  body : List Char
  vars : List (List Char)
  deriving DecidableEq

/-- The `MessageResult` dataclass. -/
structure MessageResult where
  success : Bool
  message_id : Option String
  error : Option String
  delivery_status : String
  timestamp : ℚ
  deriving DecidableEq

/-- Python `s.replace(pat, rep)`: rewrite every non-overlapping occurrence
of `pat`, scanning left to right.  (The callers below always pass the
nonempty pattern `"{" + var + "}"`; on an empty pattern this model returns
`s` unchanged.) -/
def replaceAll (pat rep : List Char) : List Char → List Char
  | [] => []
  | c :: cs =>
    if h : pat ≠ [] ∧ pat.isPrefixOf (c :: cs) then
      rep ++ replaceAll pat rep ((c :: cs).drop pat.length)
    else
      c :: replaceAll pat rep cs
termination_by s => s.length
decreasing_by
  · simp only [List.length_drop, List.length_cons]
    have hp : 1 ≤ pat.length := by
      cases pat with
      | nil => exact absurd rfl h.1
      | cons a as => simp
    omega
  · simp

/-- The `{variable}` placeholder token for a variable name. -/
def phToken (v : List Char) : List Char := '{' :: (v ++ ['}'])

/-- The rendering loop of `_send_message_to_contact`:
`for var, value in variables.items(): message_body =
message_body.replace("{" + var + "}", str(value))`, in the dict's
insertion order. -/
def renderBody (body : List Char) (vars : List (List Char × List Char)) : List Char :=
  vars.foldl (fun b vv => replaceAll (phToken vv.1) vv.2 b) body

/-- Python truthiness of `self.twilio_phone_number` (an optional string:
`None` and `""` are falsy). -/
def pyTruthyStrOpt : Option String → Bool
  | none => false
  | some s => !s.isEmpty

/-- The gateway-side configuration of `MessageSender`: whether
`self.twilio_client` was initialized, and `self.twilio_phone_number`. -/
structure TwilioConfig where
  client_configured : Bool
  twilio_phone_number : Option String
  deriving DecidableEq

/-- Outcome of one `self.twilio_client.messages.create(...)` call: either a
created message (sid, status) or a raised `TwilioException`. -/
inductive TwilioOutcome
  | ok (sid : String) (status : String)
  | err (msg : String)
  deriving DecidableEq

/-- `MessageSender._send_via_twilio`. -/
def send_via_twilio (now : ℚ) (outcome : TwilioOutcome) (_contact : Contact)
    (_message_body : List Char) : MessageResult :=
  match outcome with
  | TwilioOutcome.ok sid status =>
    { success := true, message_id := some sid, error := none
      delivery_status := status, timestamp := now }
  | TwilioOutcome.err m =>
    { success := false, message_id := none, error := some m
      delivery_status := "failed", timestamp := now }

/-- `MessageSender._send_via_fallback`: logs the rendered message and
returns a successful result with the synthetic id
`f"fallback_{int(time.time())}"` and status `"sent"`. -/
def send_via_fallback (now : ℚ) (_contact : Contact) (_message_body : List Char) :
    MessageResult :=
  { success := true
    message_id := some ("fallback_" ++ toString (⌊now⌋ : ℤ))
    error := none
    delivery_status := "sent"
    timestamp := now }

/-- `MessageSender._send_message_to_contact`: render the body, then use
Twilio when `self.twilio_client and self.twilio_phone_number` is truthy,
else the fallback channel. -/
def send_message_to_contact (cfg : TwilioConfig) (now : ℚ) (outcome : TwilioOutcome)
    (contact : Contact) (template : MessageTemplate)
    (vars : List (List Char × List Char)) : MessageResult :=
  let message_body := renderBody template.body vars
  if cfg.client_configured && pyTruthyStrOpt cfg.twilio_phone_number then
    send_via_twilio now outcome contact message_body
  else
    send_via_fallback now contact message_body

/-- `self.message_templates.get(key)`, with the dict modelled as an
association list keyed by `template_id`. -/
def templates_get (templates : List (String × MessageTemplate)) (key : String) :
    Option MessageTemplate :=
  (templates.find? (fun p => p.1 == key)).map (fun p => p.2)

/-- The per-contact loop of `send_emergency_message`: enabled contacts are
sent to and their results appended in order; disabled contacts are skipped
with a log line. -/
def sendLoop (cfg : TwilioConfig) (now : ℚ) (outcome : Contact → TwilioOutcome)
    (template : MessageTemplate) (vars : List (List Char × List Char))
    (contacts : List Contact) (results : List MessageResult) : List MessageResult :=
  contacts.foldl
    (fun acc contact =>
      if contact.enabled then
        acc ++ [send_message_to_contact cfg now (outcome contact) contact template vars]
      else acc)
    results

/-- `MessageSender.send_emergency_message`.  The variables dict built by
`_prepare_emergency_variables` (wall-clock formatting of `time.strftime`
and of the coordinates) is abstracted as the `vars` input; `outcome`
gives the Twilio gateway's response per contact.  When the
`'emergency_alert'` template is missing the function logs an error and
returns the empty list. -/
def send_emergency_message (templates : List (String × MessageTemplate))
    (contacts : List Contact) (cfg : TwilioConfig) (now : ℚ)
    (outcome : Contact → TwilioOutcome)
    (vars : List (List Char × List Char)) : List MessageResult :=
  match templates_get templates "emergency_alert" with
  | none => []
  | some template => sendLoop cfg now outcome template vars contacts []

/-! ## A well-formedness model for template bodies

`_send_message_to_contact` renders by iterated `str.replace`, which can
manufacture new `{variable}` tokens when a substituted value is empty or
contains braces.  To state the round-trip property we model a well-formed
template body as an alternating list of brace-free literal segments and
`{name}` placeholders, flattened to the body string the source stores. -/

/-- One segment of a template body: literal text or a `{name}` placeholder. -/
inductive TemplateSeg
  | lit : List Char → TemplateSeg
  | ph : List Char → TemplateSeg
  deriving DecidableEq

/-- The text a segment contributes to the stored body string. -/
def segText : TemplateSeg → List Char
  | TemplateSeg.lit s => s
  | TemplateSeg.ph v => phToken v

/-- The body string of a segment list, as stored in `template.body`. -/
def flattenSegs (segs : List TemplateSeg) : List Char :=
  (segs.map segText).flatten

/-- A string with no brace characters. -/
def braceFree (s : List Char) : Prop := ∀ c ∈ s, c ≠ '{' ∧ c ≠ '}'

instance (s : List Char) : Decidable (braceFree s) := by
  unfold braceFree; infer_instance

/-- Well-formed segment: literal text and placeholder names are brace-free. -/
def SegWf : TemplateSeg → Prop
  | TemplateSeg.lit s => braceFree s
  | TemplateSeg.ph v => braceFree v

instance : DecidablePred SegWf := fun sg =>
  match sg with
  | TemplateSeg.lit s => inferInstanceAs (Decidable (braceFree s))
  | TemplateSeg.ph v => inferInstanceAs (Decidable (braceFree v))

/-- The segment-level effect of one `replace("{" + name + "}", val)` pass. -/
def substSeg (name val : List Char) : TemplateSeg → TemplateSeg
  | TemplateSeg.lit s => TemplateSeg.lit s
  | TemplateSeg.ph w => if w = name then TemplateSeg.lit val else TemplateSeg.ph w

/-- The segment-level effect of the whole rendering loop. -/
def substAll (vars : List (List Char × List Char)) (segs : List TemplateSeg) :
    List TemplateSeg :=
  vars.foldl (fun sg vv => sg.map (substSeg vv.1 vv.2)) segs

/-! ## Helper lemmas -/

/-- The keyword loop of `trigger_voice_emergency` returns true and handles
the trigger exactly when some keyword is contained in the processed text. -/
theorem voiceKeywordLoop_any (s : TriggerState) (now : ℚ) (text_lower : List Char) :
    ∀ kws : List (List Char),
      voiceKeywordLoop s now text_lower kws
        = if kws.any (fun kw => containsSub kw text_lower) then
            (true, (handle_emergency_trigger s now).1, (handle_emergency_trigger s now).2)
          else (false, s, false) := by
  intro kws
  induction kws with
  | nil => simp [voiceKeywordLoop]
  | cons kw rest ih =>
    by_cases hkw : containsSub kw text_lower
    · simp [voiceKeywordLoop, hkw]
    · simp [voiceKeywordLoop, hkw, ih]

/-! ## Claim C1 -/

/-- C1, counterexample: with a confirmation window already active
(`is_active = true`), `trigger_manual_emergency` leaves the state unchanged
and starts nothing, but returns `true` — not `false` as the claim states.
(`_handle_emergency_trigger` returns early on `self.is_active`, yet the
trigger methods return `True` unconditionally after calling it.) -/
theorem trigger_while_active_returns_true_cx :
    trigger_manual_emergency ⟨true, some 2, false, false⟩ 5
      = (true, ⟨true, some 2, false, false⟩, false) ∧ true ≠ false := by
  exact ⟨rfl, by decide⟩

/-- C1, amended: if a confirmation window is already active, every trigger
operation (voice with a keyword-bearing text, gesture with a two-fingers
gesture, manual) leaves the active emergency state unchanged and does not
start a confirmation process or fire the emergency callback (so no alert is
created), but the call returns `true`, not `false`: the boolean reports
that a trigger condition was detected, not that it was accepted. -/
theorem trigger_while_active_state_unchanged (s : TriggerState) (h : s.is_active = true)
    (text : List Char) (confidence now : ℚ) (g : GestureData)
    (hkw : (emergency_keywords.any fun kw => containsSub kw (pyStrip (pyLower text))) = true)
    (hg : g.gesture_type = some "two_fingers") :
    trigger_voice_emergency s text confidence now = (true, s, false) ∧
    trigger_gesture_emergency s g now = (true, s, false) ∧
    trigger_manual_emergency s now = (true, s, false) := by
  have hh : handle_emergency_trigger s now = (s, false) := by
    simp [handle_emergency_trigger, h]
  refine ⟨?_, ?_, ?_⟩
  · rw [trigger_voice_emergency, voiceKeywordLoop_any, hkw]
    simp [hh]
  · simp [trigger_gesture_emergency, hg, hh]
  · simp [trigger_manual_emergency, hh]

/-- Witness for the amended C1 at a concrete active state and inputs. -/
theorem trigger_while_active_state_unchanged_witness :
    (⟨true, some 0, false, false⟩ : TriggerState).is_active = true ∧
    (emergency_keywords.any fun kw =>
        containsSub kw (pyStrip (pyLower "help me".toList))) = true ∧
    (⟨some "two_fingers", 1⟩ : GestureData).gesture_type = some "two_fingers" ∧
    (trigger_voice_emergency ⟨true, some 0, false, false⟩ "help me".toList (9 / 10) 7
        = (true, ⟨true, some 0, false, false⟩, false) ∧
      trigger_gesture_emergency ⟨true, some 0, false, false⟩ ⟨some "two_fingers", 1⟩ 7
        = (true, ⟨true, some 0, false, false⟩, false) ∧
      trigger_manual_emergency ⟨true, some 0, false, false⟩ 7
        = (true, ⟨true, some 0, false, false⟩, false)) :=
  ⟨rfl, by decide, rfl,
    trigger_while_active_state_unchanged ⟨true, some 0, false, false⟩ rfl
      "help me".toList (9 / 10) 7 ⟨some "two_fingers", 1⟩ (by decide) rfl⟩

/-! ## Claim C10 -/

/-- C10: `trigger_voice_emergency` returns `true` exactly when the
lowercased, stripped text contains one of the six keywords `help`,
`emergency`, `sos`, `assist`, `urgent`, `danger` as a substring; on a text
containing none of them it returns `false` and changes no state; and the
result is independent of the confidence value. -/
theorem trigger_voice_keyword_characterization (s : TriggerState) (text : List Char)
    (c₁ c₂ now : ℚ) :
    emergency_keywords
      = ["help".toList, "emergency".toList, "sos".toList,
         "assist".toList, "urgent".toList, "danger".toList] ∧
    ((trigger_voice_emergency s text c₁ now).1
      = emergency_keywords.any fun kw => containsSub kw (pyStrip (pyLower text))) ∧
    ((emergency_keywords.any fun kw => containsSub kw (pyStrip (pyLower text))) = false →
      trigger_voice_emergency s text c₁ now = (false, s, false)) ∧
    trigger_voice_emergency s text c₁ now = trigger_voice_emergency s text c₂ now := by
  refine ⟨rfl, ?_, ?_, rfl⟩
  · rw [trigger_voice_emergency, voiceKeywordLoop_any]
    cases h : emergency_keywords.any fun kw => containsSub kw (pyStrip (pyLower text)) with
    | true => simp [h]
    | false => simp [h]
  · intro h
    rw [trigger_voice_emergency, voiceKeywordLoop_any, h]
    simp

/-- Witness for C10: a keyword-free text is rejected without state change. -/
theorem trigger_voice_keyword_characterization_witness :
    (emergency_keywords.any fun kw =>
        containsSub kw (pyStrip (pyLower "  Hello there, friend  ".toList))) = false ∧
    trigger_voice_emergency initTriggerState "  Hello there, friend  ".toList (1 / 2) 3
      = (false, initTriggerState, false) :=
  ⟨by decide,
    (trigger_voice_keyword_characterization initTriggerState
        "  Hello there, friend  ".toList (1 / 2) (1 / 2) 3).2.2.1 (by decide)⟩

/-! ## Claim C3 -/

/-- C3: however the confirmation loop terminates — confirmation,
cancellation, timeout, or an exception raised inside the fired resolution
callback (`cbRaises`) — the `finally` clause resets the machine to the idle
state: `is_active` false, start time cleared, both flags cleared; and a
subsequent manual trigger on the reset state is accepted (it starts a new
confirmation window). -/
theorem confirmation_loop_always_resets (s : TriggerState) (conf canc : ℕ → Bool)
    (T fuel : ℕ) (cbRaises : Resolution → Bool) (now : ℚ) :
    (emergency_confirmation_loop_run s conf canc T fuel cbRaises).2.2 = initTriggerState ∧
    ((emergency_confirmation_loop_run s conf canc T fuel cbRaises).2.2).is_active = false ∧
    ((emergency_confirmation_loop_run s conf canc T fuel cbRaises).2.2).emergency_start_time
      = none ∧
    ((emergency_confirmation_loop_run s conf canc T fuel cbRaises).2.2).emergency_confirmed
      = false ∧
    ((emergency_confirmation_loop_run s conf canc T fuel cbRaises).2.2).emergency_cancelled
      = false ∧
    trigger_manual_emergency
        (emergency_confirmation_loop_run s conf canc T fuel cbRaises).2.2 now
      = (true, ⟨true, some now, false, false⟩, true) := by
  have hreset : (emergency_confirmation_loop_run s conf canc T fuel cbRaises).2.2
      = initTriggerState := by
    unfold emergency_confirmation_loop_run
    cases emergency_confirmation_loop conf canc T fuel <;> rfl
  rw [hreset]
  refine ⟨rfl, rfl, rfl, rfl, rfl, rfl⟩

/-! ## Claim C2 -/

/-- The polling loop resolves at the first tick at which a flag is set or
the timeout has elapsed, taking the branch order of the loop body there. -/
theorem confirmationLoopAux_spec (conf canc : ℕ → Bool) (T : ℕ) :
    ∀ fuel k : ℕ, (∃ j, k ≤ j ∧ j < k + fuel ∧ loopHit conf canc T j = true) →
      ∃ K, k ≤ K ∧ loopHit conf canc T K = true ∧
        (∀ j, k ≤ j → j < K → loopHit conf canc T j = false) ∧
        confirmationLoopAux conf canc T fuel k = some (loopResolveAt conf canc K) := by
  intro fuel
  induction fuel with
  | zero =>
    intro k hex
    obtain ⟨j, hj1, hj2, _⟩ := hex
    omega
  | succ fuel ih =>
    intro k hex
    by_cases hk : loopHit conf canc T k = true
    · refine ⟨k, le_refl k, hk, fun j h1 h2 => by omega, ?_⟩
      simp only [confirmationLoopAux, loopResolveAt]
      unfold loopHit at hk
      by_cases h1 : conf k = true
      · simp [h1]
      · by_cases h2 : canc k = true
        · simp [h1, h2]
        · have h3 : T ≤ k := by
            simp [h1, h2] at hk
            exact hk
          simp [h1, h2, h3]
    · have hk' : (conf k = false ∧ canc k = false) ∧ k < T := by
        unfold loopHit at hk
        simpa using hk
      have h1 : conf k = false := hk'.1.1
      have h2 : canc k = false := hk'.1.2
      have h3 : ¬ T ≤ k := by omega
      have hstep : confirmationLoopAux conf canc T (fuel + 1) k
          = confirmationLoopAux conf canc T fuel (k + 1) := by
        simp only [confirmationLoopAux]
        simp [h1, h2, h3]
      obtain ⟨j, hj1, hj2, hj3⟩ := hex
      have hjk : j ≠ k := by
        intro he
        rw [he] at hj3
        exact hk hj3
      obtain ⟨K, hK1, hK2, hK3, hK4⟩ :=
        ih (k + 1) ⟨j, by omega, by omega, hj3⟩
      refine ⟨K, by omega, hK2, ?_, by rw [hstep]; exact hK4⟩
      intro j' hj'1 hj'2
      rcases Nat.eq_or_lt_of_le hj'1 with he | hlt
      · rw [← he]
        exact Bool.eq_false_iff.mpr hk
      · exact hK3 j' hlt hj'2

/-- C2, amended: the loop always resolves (given fuel past the timeout
tick), firing exactly one resolution callback, namely the branch taken at
the first tick `K` at which the confirmed flag is observed, the cancelled
flag is observed, or the timeout has elapsed; before `K` neither flag is
observed and the timeout has not elapsed.  When both flags are observed at
the same tick the loop body checks `emergency_confirmed` first, so the
confirmation callback fires regardless of which signal was set first; an
unanswered window resolves through the timeout branch, which fires the
confirmation callback. -/
theorem emergency_confirmation_loop_resolution (conf canc : ℕ → Bool) (T fuel : ℕ)
    (hfuel : T < fuel) :
    ∃ K, K ≤ T ∧
      (∀ j, j < K → conf j = false ∧ canc j = false ∧ j < T) ∧
      emergency_confirmation_loop conf canc T fuel = some (loopResolveAt conf canc K) ∧
      (conf K = true ∨ canc K = true ∨
        (T ≤ K ∧ loopResolveAt conf canc K = Resolution.timeoutRes)) := by
  have hex : ∃ j, 0 ≤ j ∧ j < 0 + fuel ∧ loopHit conf canc T j = true := by
    refine ⟨T, by omega, by omega, ?_⟩
    unfold loopHit
    simp
  obtain ⟨K, _, hK2, hK3, hK4⟩ := confirmationLoopAux_spec conf canc T fuel 0 hex
  have hKT : K ≤ T := by
    by_contra hgt
    push_neg at hgt
    have hT := hK3 T (by omega) (by omega)
    unfold loopHit at hT
    simp at hT
  refine ⟨K, hKT, ?_, hK4, ?_⟩
  · intro j hj
    have hmiss : (conf j = false ∧ canc j = false) ∧ j < T := by
      have := hK3 j (by omega) hj
      unfold loopHit at this
      simpa using this
    exact ⟨hmiss.1.1, hmiss.1.2, by omega⟩
  · by_cases h1 : conf K = true
    · exact Or.inl h1
    · by_cases h2 : canc K = true
      · exact Or.inr (Or.inl h2)
      · refine Or.inr (Or.inr ⟨?_, ?_⟩)
        · unfold loopHit at hK2
          simp [h1, h2] at hK2
          exact hK2
        · unfold loopResolveAt
          simp [h1, h2]

/-- Witness for the amended C2 at concrete signals: confirm set from tick 3
onward, cancel never, timeout tick 10, fuel 11. -/
theorem emergency_confirmation_loop_resolution_witness :
    10 < 11 ∧
    (∃ K, K ≤ 10 ∧
      (∀ j, j < K → (fun k => decide (3 ≤ k)) j = false ∧ (fun _ => false) j = false ∧
        j < 10) ∧
      emergency_confirmation_loop (fun k => decide (3 ≤ k)) (fun _ => false) 10 11
        = some (loopResolveAt (fun k => decide (3 ≤ k)) (fun _ => false) K) ∧
      ((fun k => decide (3 ≤ k)) K = true ∨ (fun _ => false) K = true ∨
        (10 ≤ K ∧ loopResolveAt (fun k => decide (3 ≤ k)) (fun _ => false) K
          = Resolution.timeoutRes))) :=
  ⟨by omega,
    emergency_confirmation_loop_resolution (fun k => decide (3 ≤ k)) (fun _ => false)
      10 11 (by omega)⟩

/-- C2, counterexample to the race clause: starting from an active window
with neither flag set, `cancel_emergency` is signalled first (it sets the
cancelled flag — not a no-op), then `confirm_emergency` is signalled (it
checks `not self.emergency_confirmed`, not the cancelled flag, so it also
sets its flag); at the next poll tick both flags are observed and the loop
resolves through the confirmation branch, not the cancellation branch the
claim requires for the first-signalled cancel. -/
theorem same_tick_race_confirm_wins_cx :
    (cancel_emergency ⟨true, some 0, false, false⟩).emergency_cancelled = true ∧
    (confirm_emergency (cancel_emergency ⟨true, some 0, false, false⟩)).emergency_confirmed
      = true ∧
    (confirm_emergency (cancel_emergency ⟨true, some 0, false, false⟩)).emergency_cancelled
      = true ∧
    emergency_confirmation_loop
      (fun _ => (confirm_emergency
        (cancel_emergency ⟨true, some 0, false, false⟩)).emergency_confirmed)
      (fun _ => (confirm_emergency
        (cancel_emergency ⟨true, some 0, false, false⟩)).emergency_cancelled)
      100 101 = some Resolution.confirmedRes ∧
    Resolution.confirmedRes ≠ Resolution.cancelledRes := by
  refine ⟨rfl, rfl, rfl, rfl, by decide⟩

/-! ## Claim C5 -/

/-- C5: with a cached location of age strictly below the 3600 s TTL,
`get_current_location` returns the cached value unchanged, queries no
provider and leaves the cache untouched; once the age reaches the TTL the
cached value is not served, the provider chain is queried, and the result
is whatever the provider lookup produced (`none` when it failed, in which
case the stale cache file is not overwritten). -/
theorem location_cache_ttl (now : ℚ) (c : LocationData) (ip : Option LocationData) :
    (now - c.timestamp < 3600 →
      get_current_location now (some c) ip = (some c, false, some c)) ∧
    (3600 ≤ now - c.timestamp →
      (get_current_location now (some c) ip).2.1 = true ∧
      (get_current_location now (some c) ip).1 = ip) := by
  constructor
  · intro h
    simp [get_current_location, is_cache_valid, cache_duration, h]
  · intro h
    have hv : is_cache_valid now c = false := by
      simp [is_cache_valid, cache_duration]
      linarith
    cases ip <;> simp [get_current_location, hv]

/-- Witness for C5: a one-hundred-second-old cache entry is served
unchanged, and a stale one forces a provider query. -/
theorem location_cache_ttl_witness :
    ((100 : ℚ) - (⟨10, 20, "a", "b", "c", 1, 0, "ip"⟩ : LocationData).timestamp < 3600 ∧
      get_current_location 100 (some ⟨10, 20, "a", "b", "c", 1, 0, "ip"⟩) none
        = (some ⟨10, 20, "a", "b", "c", 1, 0, "ip"⟩, false,
           some ⟨10, 20, "a", "b", "c", 1, 0, "ip"⟩)) ∧
    ((3600 : ℚ) ≤ 5000 - (⟨10, 20, "a", "b", "c", 1, 0, "ip"⟩ : LocationData).timestamp ∧
      (get_current_location 5000 (some ⟨10, 20, "a", "b", "c", 1, 0, "ip"⟩) none).2.1
        = true ∧
      (get_current_location 5000 (some ⟨10, 20, "a", "b", "c", 1, 0, "ip"⟩) none).1
        = none) :=
  ⟨⟨by norm_num, (location_cache_ttl 100 ⟨10, 20, "a", "b", "c", 1, 0, "ip"⟩ none).1
      (by norm_num)⟩,
    ⟨by norm_num, (location_cache_ttl 5000 ⟨10, 20, "a", "b", "c", 1, 0, "ip"⟩ none).2
      (by norm_num)⟩⟩

/-! ## Claim C4 -/

/-- C4, counterexample: `get_current_location` never calls
`validate_location_accuracy`.  An `ipapi.co` response with missing
latitude/longitude fields parses to the invalid location `(0, 0)` (the
Python `data.get(key, 0)` defaults), and `get_current_location` both
returns and caches it even though `validate_location_accuracy` rejects it. -/
theorem unvalidated_location_returned_cx :
    get_current_location 50 none (some (parse_ip_response_ipapi 50 ⟨none, none, none, none, none⟩))
      = (some (parse_ip_response_ipapi 50 ⟨none, none, none, none, none⟩), true,
         some (parse_ip_response_ipapi 50 ⟨none, none, none, none, none⟩)) ∧
    (parse_ip_response_ipapi 50 ⟨none, none, none, none, none⟩).latitude = 0 ∧
    (parse_ip_response_ipapi 50 ⟨none, none, none, none, none⟩).longitude = 0 ∧
    validate_location_accuracy (parse_ip_response_ipapi 50 ⟨none, none, none, none, none⟩)
      = false := by
  refine ⟨rfl, rfl, rfl, by decide⟩

/-- C4, amended: `get_current_location` performs no validation — every
location it returns is passed through verbatim from the cache file or from
the provider parser, so the validity invariant holds only when the
cached/provider data happens to satisfy it.  The invariant check lives
solely in the separate `validate_location_accuracy` method, which holds
exactly when latitude is in `[-90, 90]`, longitude is in `[-180, 180]`, the
coordinates are not exactly `(0, 0)`, and additionally the accuracy score is
at least 0.5. -/
theorem location_validation_characterization (loc : LocationData) (now : ℚ)
    (cached ip : Option LocationData) :
    (validate_location_accuracy loc = true ↔
      (-90 ≤ loc.latitude ∧ loc.latitude ≤ 90 ∧
        -180 ≤ loc.longitude ∧ loc.longitude ≤ 180 ∧
        ¬(loc.latitude = 0 ∧ loc.longitude = 0) ∧
        (1 : ℚ) / 2 ≤ loc.accuracy)) ∧
    ((get_current_location now cached ip).1 = some loc →
      cached = some loc ∨ ip = some loc) := by
  constructor
  · unfold validate_location_accuracy
    by_cases h1 : -90 ≤ loc.latitude ∧ loc.latitude ≤ 90
    · rw [if_neg (not_not_intro h1)]
      by_cases h2 : -180 ≤ loc.longitude ∧ loc.longitude ≤ 180
      · rw [if_neg (not_not_intro h2)]
        by_cases h3 : loc.latitude = 0 ∧ loc.longitude = 0
        · rw [if_pos h3]
          exact iff_of_false (by simp) fun hP => hP.2.2.2.2.1 h3
        · rw [if_neg h3]
          by_cases h4 : loc.accuracy < (1 : ℚ) / 2
          · rw [if_pos h4]
            exact iff_of_false (by simp) fun hP => absurd hP.2.2.2.2.2 (by linarith)
          · rw [if_neg h4]
            exact iff_of_true rfl ⟨h1.1, h1.2, h2.1, h2.2, h3, by linarith⟩
      · rw [if_pos h2]
        exact iff_of_false (by simp) fun hP => h2 ⟨hP.2.2.1, hP.2.2.2.1⟩
    · rw [if_pos h1]
      exact iff_of_false (by simp) fun hP => h1 ⟨hP.1, hP.2.1⟩
  · intro h
    cases cached with
    | none =>
      cases ip with
      | none => simp [get_current_location] at h
      | some l =>
        simp [get_current_location] at h
        exact Or.inr (by rw [h])
    | some c =>
      by_cases hv : is_cache_valid now c = true
      · simp [get_current_location, hv] at h
        exact Or.inl (by rw [h])
      · have hv' : is_cache_valid now c = false := by
          simpa using hv
        cases ip with
        | none => simp [get_current_location, hv'] at h
        | some l =>
          simp [get_current_location, hv'] at h
          exact Or.inr (by rw [h])

/-- Witness for the amended C4: a valid location passes the checker, and a
concrete pass-through of `get_current_location` comes from the cache. -/
theorem location_validation_characterization_witness :
    ((-90 : ℚ) ≤ 10 ∧ (10 : ℚ) ≤ 90 ∧ (-180 : ℚ) ≤ 20 ∧ (20 : ℚ) ≤ 180 ∧
      ¬((10 : ℚ) = 0 ∧ (20 : ℚ) = 0) ∧ (1 : ℚ) / 2 ≤ 1) ∧
    validate_location_accuracy ⟨10, 20, "a", "b", "c", 1, 0, "ip"⟩ = true ∧
    ((get_current_location 100 (some ⟨10, 20, "a", "b", "c", 1, 0, "ip"⟩) none).1
        = some ⟨10, 20, "a", "b", "c", 1, 0, "ip"⟩ →
      some (⟨10, 20, "a", "b", "c", 1, 0, "ip"⟩ : LocationData)
          = some ⟨10, 20, "a", "b", "c", 1, 0, "ip"⟩ ∨
      (none : Option LocationData) = some ⟨10, 20, "a", "b", "c", 1, 0, "ip"⟩) := by
  refine ⟨by norm_num, ?_, ?_⟩
  · exact (location_validation_characterization ⟨10, 20, "a", "b", "c", 1, 0, "ip"⟩ 100
      (some ⟨10, 20, "a", "b", "c", 1, 0, "ip"⟩) none).1.mpr (by norm_num)
  · exact (location_validation_characterization ⟨10, 20, "a", "b", "c", 1, 0, "ip"⟩ 100
      (some ⟨10, 20, "a", "b", "c", 1, 0, "ip"⟩) none).2

/-! ## Claim C6 -/

/-- The per-contact loop produces, after any accumulator, exactly the
results of the enabled contacts in order. -/
theorem sendLoop_eq (cfg : TwilioConfig) (now : ℚ) (outcome : Contact → TwilioOutcome)
    (template : MessageTemplate) (vars : List (List Char × List Char)) :
    ∀ (contacts : List Contact) (acc : List MessageResult),
      sendLoop cfg now outcome template vars contacts acc
        = acc ++ (contacts.filter fun c => c.enabled).map
            (fun c => send_message_to_contact cfg now (outcome c) c template vars) := by
  intro contacts
  induction contacts with
  | nil => intro acc; simp [sendLoop]
  | cons c cs ih =>
    intro acc
    have hstep : sendLoop cfg now outcome template vars (c :: cs) acc
        = sendLoop cfg now outcome template vars cs
            (if c.enabled then
              acc ++ [send_message_to_contact cfg now (outcome c) c template vars]
             else acc) := rfl
    rw [hstep, ih]
    by_cases hc : c.enabled <;> simp [hc, List.filter_cons]

/-- C6: whenever the `'emergency_alert'` template is present,
`send_emergency_message` returns exactly one `MessageResult` per enabled
contact (in contact-list order) and none for disabled contacts — whatever
the Twilio configuration and whatever each gateway call does. -/
theorem dispatch_one_result_per_enabled_contact
    (templates : List (String × MessageTemplate)) (contacts : List Contact)
    (cfg : TwilioConfig) (now : ℚ) (outcome : Contact → TwilioOutcome)
    (vars : List (List Char × List Char)) (t : MessageTemplate)
    (h : templates_get templates "emergency_alert" = some t) :
    send_emergency_message templates contacts cfg now outcome vars
      = (contacts.filter fun c => c.enabled).map
          (fun c => send_message_to_contact cfg now (outcome c) c t vars) ∧
    (send_emergency_message templates contacts cfg now outcome vars).length
      = (contacts.filter fun c => c.enabled).length := by
  have he : send_emergency_message templates contacts cfg now outcome vars
      = sendLoop cfg now outcome t vars contacts [] := by
    unfold send_emergency_message
    rw [h]
  rw [he, sendLoop_eq]
  simp

/-- Witness for C6 with one enabled and one disabled contact, failing
gateway, and an unconfigured Twilio client. -/
theorem dispatch_one_result_per_enabled_contact_witness :
    templates_get [("emergency_alert", ⟨"emergency_alert", "s", [], []⟩)] "emergency_alert"
      = some ⟨"emergency_alert", "s", [], []⟩ ∧
    (send_emergency_message [("emergency_alert", ⟨"emergency_alert", "s", [], []⟩)]
        [⟨"A", "1", "family", 1, true⟩, ⟨"B", "2", "friend", 2, false⟩]
        ⟨false, none⟩ 3 (fun _ => TwilioOutcome.err "boom") []
      = (([⟨"A", "1", "family", 1, true⟩, ⟨"B", "2", "friend", 2, false⟩] :
            List Contact).filter fun c => c.enabled).map
          (fun c => send_message_to_contact ⟨false, none⟩ 3 (TwilioOutcome.err "boom") c
            ⟨"emergency_alert", "s", [], []⟩ []) ∧
    (send_emergency_message [("emergency_alert", ⟨"emergency_alert", "s", [], []⟩)]
        [⟨"A", "1", "family", 1, true⟩, ⟨"B", "2", "friend", 2, false⟩]
        ⟨false, none⟩ 3 (fun _ => TwilioOutcome.err "boom") []).length
      = (([⟨"A", "1", "family", 1, true⟩, ⟨"B", "2", "friend", 2, false⟩] :
            List Contact).filter fun c => c.enabled).length) :=
  ⟨rfl,
    dispatch_one_result_per_enabled_contact
      [("emergency_alert", ⟨"emergency_alert", "s", [], []⟩)]
      [⟨"A", "1", "family", 1, true⟩, ⟨"B", "2", "friend", 2, false⟩]
      ⟨false, none⟩ 3 (fun _ => TwilioOutcome.err "boom") []
      ⟨"emergency_alert", "s", [], []⟩ rfl⟩

/-! ## Claim C8 -/

/-- C8, counterexample: with the `'emergency_alert'` template missing and
one enabled contact, `send_emergency_message` returns the empty list — it
does not "still send the message to every enabled contact". -/
theorem missing_template_sends_nothing_cx :
    send_emergency_message [] [⟨"A", "1", "family", 1, true⟩] ⟨false, none⟩ 0
      (fun _ => TwilioOutcome.err "e") [] = [] ∧
    (([⟨"A", "1", "family", 1, true⟩] : List Contact).filter fun c => c.enabled).length
      = 1 := by
  exact ⟨rfl, rfl⟩

/-- C8, amended: when the `'emergency_alert'` template is missing from the
loaded template set, `send_emergency_message` logs the configuration error
and returns the empty list without raising — no message is sent to any
contact, enabled or not. -/
theorem missing_template_returns_empty
    (templates : List (String × MessageTemplate)) (contacts : List Contact)
    (cfg : TwilioConfig) (now : ℚ) (outcome : Contact → TwilioOutcome)
    (vars : List (List Char × List Char))
    (h : templates_get templates "emergency_alert" = none) :
    send_emergency_message templates contacts cfg now outcome vars = [] := by
  unfold send_emergency_message
  rw [h]

/-- Witness for the amended C8 on an empty template set. -/
theorem missing_template_returns_empty_witness :
    templates_get [] "emergency_alert" = none ∧
    send_emergency_message [] [⟨"A", "1", "family", 1, true⟩] ⟨true, some "+1"⟩ 0
      (fun _ => TwilioOutcome.ok "sid" "queued") [] = [] :=
  ⟨rfl,
    missing_template_returns_empty [] [⟨"A", "1", "family", 1, true⟩] ⟨true, some "+1"⟩ 0
      (fun _ => TwilioOutcome.ok "sid" "queued") [] rfl⟩

/-! ## Claim C9 -/

/-- C9: when the Twilio client or the sending phone number is not
configured (their conjunction is falsy), every per-contact delivery goes
through the local fallback channel, and every result of a dispatch has
`success = true`, the synthetic message id `"fallback_" + int(now)` (in
particular a non-null id with the `fallback_` prefix), delivery status
`"sent"`, and no error. -/
theorem fallback_when_twilio_unconfigured
    (templates : List (String × MessageTemplate)) (contacts : List Contact)
    (cfg : TwilioConfig) (now : ℚ) (outcome : Contact → TwilioOutcome)
    (vars : List (List Char × List Char))
    (h : (cfg.client_configured && pyTruthyStrOpt cfg.twilio_phone_number) = false) :
    (∀ (contact : Contact) (template : MessageTemplate),
      send_message_to_contact cfg now (outcome contact) contact template vars
        = send_via_fallback now contact (renderBody template.body vars)) ∧
    (∀ r ∈ send_emergency_message templates contacts cfg now outcome vars,
      r.success = true ∧
      r.message_id = some ("fallback_" ++ toString (⌊now⌋ : ℤ)) ∧
      (∃ suffix, r.message_id = some ("fallback_" ++ suffix)) ∧
      r.delivery_status = "sent" ∧
      r.error = none) := by
  have hsend : ∀ (contact : Contact) (outc : TwilioOutcome) (template : MessageTemplate),
      send_message_to_contact cfg now outc contact template vars
        = send_via_fallback now contact (renderBody template.body vars) := by
    intro contact outc template
    unfold send_message_to_contact
    rw [h]
    simp
  refine ⟨fun contact template => hsend contact (outcome contact) template, ?_⟩
  intro r hr
  unfold send_emergency_message at hr
  cases htg : templates_get templates "emergency_alert" with
  | none =>
    rw [htg] at hr
    have hr' : r ∈ ([] : List MessageResult) := hr
    simp at hr'
  | some t =>
    rw [htg] at hr
    have hr' : r ∈ sendLoop cfg now outcome t vars contacts [] := hr
    rw [sendLoop_eq] at hr'
    simp only [List.nil_append, List.mem_map] at hr'
    obtain ⟨c, _, hrc⟩ := hr'
    rw [hsend c (outcome c) t] at hrc
    rw [← hrc]
    exact ⟨rfl, rfl, ⟨toString (⌊now⌋ : ℤ), rfl⟩, rfl, rfl⟩

/-- Witness for C9: an unconfigured sender produces the fallback result for
a concrete contact, template and dispatch. -/
theorem fallback_when_twilio_unconfigured_witness :
    ((⟨false, none⟩ : TwilioConfig).client_configured
        && pyTruthyStrOpt (⟨false, none⟩ : TwilioConfig).twilio_phone_number) = false ∧
    send_message_to_contact ⟨false, none⟩ 7 (TwilioOutcome.err "e")
        ⟨"A", "1", "family", 1, true⟩ ⟨"emergency_alert", "s", [], []⟩ []
      = send_via_fallback 7 ⟨"A", "1", "family", 1, true⟩
          (renderBody (⟨"emergency_alert", "s", [], []⟩ : MessageTemplate).body []) :=
  ⟨rfl,
    (fallback_when_twilio_unconfigured [] [] ⟨false, none⟩ 7 (fun _ => TwilioOutcome.err "e")
        [] rfl).1 ⟨"A", "1", "family", 1, true⟩ ⟨"emergency_alert", "s", [], []⟩⟩

/-! ## Claim C7: rendering lemmas -/

/-- Unfolding equation for one scan step of `replaceAll`. -/
theorem replaceAll_cons (pat rep : List Char) (c : Char) (cs : List Char) :
    replaceAll pat rep (c :: cs)
      = if pat ≠ [] ∧ pat.isPrefixOf (c :: cs) then
          rep ++ replaceAll pat rep ((c :: cs).drop pat.length)
        else c :: replaceAll pat rep cs := by
  simp only [replaceAll]
  rw [dite_eq_ite]

/-- A brace-less prefix of the scanned text is copied through unchanged by
a `replace` whose pattern starts with `'{'`. -/
theorem replaceAll_append_left (p rep : List Char) :
    ∀ s t : List Char, (∀ c ∈ s, c ≠ '{') →
      replaceAll ('{' :: p) rep (s ++ t) = s ++ replaceAll ('{' :: p) rep t := by
  intro s
  induction s with
  | nil => intro t _; simp
  | cons c cs ih =>
    intro t hs
    have hc : ('{' : Char) ≠ c := fun h => hs c (by simp) h.symm
    have hpre : ('{' :: p).isPrefixOf (c :: (cs ++ t)) = false := by
      simp [List.isPrefixOf, hc]
    rw [List.cons_append, replaceAll_cons, if_neg]
    · rw [ih t fun x hx => hs x (by simp [hx])]
      rfl
    · rintro ⟨-, h2⟩
      rw [hpre] at h2
      exact Bool.false_ne_true h2

/-- `replace` rewrites a pattern occurrence sitting at the head of the
scanned text. -/
theorem replaceAll_self_append (p rep t : List Char) :
    replaceAll ('{' :: p) rep (('{' :: p) ++ t) = rep ++ replaceAll ('{' :: p) rep t := by
  have hpre : ('{' :: p).isPrefixOf (('{' :: p) ++ t) = true := by
    rw [List.isPrefixOf_iff_prefix]
    exact List.prefix_append _ t
  rw [List.cons_append, replaceAll_cons, if_pos]
  · have hd : (('{' :: (p ++ t)).drop ('{' :: p).length) = t := by
      simp [List.drop_left]
    rw [hd]
  · exact ⟨by simp, by rw [← List.cons_append]; exact hpre⟩

/-- The tail of a `{v}` token is never a prefix of a different name's token
followed by anything, when names are brace-free. -/
theorem tokTail_not_prefix :
    ∀ v w t : List Char, (∀ c ∈ v, c ≠ '}') → (∀ c ∈ w, c ≠ '}') → v ≠ w →
      (v ++ ['}']).isPrefixOf (w ++ '}' :: t) = false := by
  intro v
  induction v with
  | nil =>
    intro w t _ hw hne
    cases w with
    | nil => exact absurd rfl hne
    | cons b bs =>
      have hb : ('}' : Char) ≠ b := fun h => hw b (by simp) h.symm
      simp [List.isPrefixOf, hb]
  | cons a as ih =>
    intro w t hv hw hne
    cases w with
    | nil =>
      have ha : a ≠ '}' := hv a (by simp)
      simp [List.isPrefixOf, ha]
    | cons b bs =>
      by_cases hab : a = b
      · subst hab
        have hne' : as ≠ bs := fun h => hne (by rw [h])
        have := ih bs t (fun c hc => hv c (by simp [hc])) (fun c hc => hw c (by simp [hc])) hne'
        simpa [List.isPrefixOf] using this
      · simp [List.isPrefixOf, hab]

/-- One full rendering pass over the flattened body of a well-formed
segment list performs exactly the segment-level substitution. -/
theorem replaceAll_token_flatten (v val : List Char) (hv : braceFree v) :
    ∀ segs : List TemplateSeg, (∀ sg ∈ segs, SegWf sg) →
      replaceAll (phToken v) val (flattenSegs segs)
        = flattenSegs (segs.map (substSeg v val)) := by
  intro segs
  induction segs with
  | nil => intro _; simp [flattenSegs, replaceAll]
  | cons sg rest ih =>
    intro hwf
    have hsg : SegWf sg := hwf sg (by simp)
    have hrest : ∀ x ∈ rest, SegWf x := fun x hx => hwf x (by simp [hx])
    cases sg with
    | lit s =>
      have h1 : flattenSegs (TemplateSeg.lit s :: rest) = s ++ flattenSegs rest := by
        simp [flattenSegs, segText]
      have h2 : flattenSegs ((TemplateSeg.lit s :: rest).map (substSeg v val))
          = s ++ flattenSegs (rest.map (substSeg v val)) := by
        simp [flattenSegs, segText, substSeg]
      rw [h1, h2, phToken, replaceAll_append_left _ _ s _ fun c hc => (hsg c hc).1,
        ← phToken, ih hrest]
    | ph w =>
      by_cases hvw : w = v
      · subst hvw
        have h1 : flattenSegs (TemplateSeg.ph w :: rest)
            = phToken w ++ flattenSegs rest := by
          simp [flattenSegs, segText]
        have h2 : flattenSegs ((TemplateSeg.ph w :: rest).map (substSeg w val))
            = val ++ flattenSegs (rest.map (substSeg w val)) := by
          simp [flattenSegs, segText, substSeg]
        rw [h1, h2, phToken, replaceAll_self_append, ← phToken, ih hrest]
      · have h1 : flattenSegs (TemplateSeg.ph w :: rest)
            = '{' :: ((w ++ ['}']) ++ flattenSegs rest) := by
          simp [flattenSegs, segText, phToken]
        have h2 : flattenSegs ((TemplateSeg.ph w :: rest).map (substSeg v val))
            = '{' :: ((w ++ ['}']) ++ flattenSegs (rest.map (substSeg v val))) := by
          simp [flattenSegs, segText, substSeg, hvw, phToken]
        have hpre : (phToken v).isPrefixOf ('{' :: ((w ++ ['}']) ++ flattenSegs rest))
            = false := by
          have htail : (v ++ ['}']).isPrefixOf (w ++ '}' :: flattenSegs rest) = false :=
            tokTail_not_prefix v w (flattenSegs rest)
              (fun c hc => (hv c hc).2) (fun c hc => (hsg c hc).2)
              (fun h => hvw h.symm)
          simp only [phToken, List.isPrefixOf, beq_self_eq_true, Bool.true_and]
          simpa using htail
        rw [h1, h2, replaceAll_cons, if_neg]
        · have hskip : replaceAll (phToken v) val ((w ++ ['}']) ++ flattenSegs rest)
              = (w ++ ['}']) ++ replaceAll (phToken v) val (flattenSegs rest) := by
            rw [phToken]
            exact replaceAll_append_left _ _ (w ++ ['}']) (flattenSegs rest)
              (by
                intro c hc
                rcases List.mem_append.mp hc with h | h
                · exact (hsg c h).1
                · simp at h
                  rw [h]
                  decide)
          rw [hskip, ih hrest]
        · rintro ⟨-, hp⟩
          rw [hpre] at hp
          exact Bool.false_ne_true hp

/-- Containment of a `'{'`-headed pattern is unaffected by a brace-less
prefix of the text. -/
theorem containsSub_append_left (p : List Char) :
    ∀ s t : List Char, (∀ c ∈ s, c ≠ '{') →
      containsSub ('{' :: p) (s ++ t) = containsSub ('{' :: p) t := by
  intro s
  induction s with
  | nil => intro t _; simp
  | cons c cs ih =>
    intro t hs
    have hc : ('{' : Char) ≠ c := fun h => hs c (by simp) h.symm
    have hpre : ('{' :: p).isPrefixOf (c :: (cs ++ t)) = false := by
      simp [List.isPrefixOf, hc]
    rw [List.cons_append]
    show (('{' :: p).isPrefixOf (c :: (cs ++ t)) || containsSub ('{' :: p) (cs ++ t)) = _
    rw [hpre, Bool.false_or]
    exact ih t fun x hx => hs x (by simp [hx])

/-- Containment in the right part of an append carries to the whole text. -/
theorem containsSub_append_of_right (p : List Char) :
    ∀ s t : List Char, containsSub p t = true → containsSub p (s ++ t) = true := by
  intro s
  induction s with
  | nil => intro t h; simpa using h
  | cons c cs ih =>
    intro t h
    rw [List.cons_append]
    show (p.isPrefixOf (c :: (cs ++ t)) || containsSub p (cs ++ t)) = true
    rw [ih t h, Bool.or_true]

/-- A token whose name differs from every placeholder of a well-formed
segment list does not occur in the flattened body. -/
theorem no_token_in_flatten (v : List Char) (hv : braceFree v) :
    ∀ segs : List TemplateSeg, (∀ sg ∈ segs, SegWf sg) →
      (∀ w, TemplateSeg.ph w ∈ segs → w ≠ v) →
      containsSub (phToken v) (flattenSegs segs) = false := by
  intro segs
  induction segs with
  | nil => intro _ _; simp [flattenSegs, containsSub, phToken]
  | cons sg rest ih =>
    intro hwf hnm
    have hsg : SegWf sg := hwf sg (by simp)
    have hrest : ∀ x ∈ rest, SegWf x := fun x hx => hwf x (by simp [hx])
    have hnmrest : ∀ w, TemplateSeg.ph w ∈ rest → w ≠ v := fun w hw =>
      hnm w (by simp [hw])
    cases sg with
    | lit s =>
      have h1 : flattenSegs (TemplateSeg.lit s :: rest) = s ++ flattenSegs rest := by
        simp [flattenSegs, segText]
      rw [h1, phToken, containsSub_append_left _ s _ fun c hc => (hsg c hc).1, ← phToken]
      exact ih hrest hnmrest
    | ph w =>
      have hwv : w ≠ v := hnm w (by simp)
      have h1 : flattenSegs (TemplateSeg.ph w :: rest)
          = '{' :: ((w ++ ['}']) ++ flattenSegs rest) := by
        simp [flattenSegs, segText, phToken]
      have hpre : (phToken v).isPrefixOf ('{' :: ((w ++ ['}']) ++ flattenSegs rest))
          = false := by
        have htail : (v ++ ['}']).isPrefixOf (w ++ '}' :: flattenSegs rest) = false :=
          tokTail_not_prefix v w (flattenSegs rest)
            (fun c hc => (hv c hc).2) (fun c hc => (hsg c hc).2)
            (fun h => hwv h.symm)
        simp only [phToken, List.isPrefixOf, beq_self_eq_true, Bool.true_and]
        simpa using htail
      rw [h1]
      show ((phToken v).isPrefixOf ('{' :: ((w ++ ['}']) ++ flattenSegs rest))
          || containsSub (phToken v) ((w ++ ['}']) ++ flattenSegs rest)) = false
      rw [hpre, Bool.false_or, phToken,
        containsSub_append_left _ (w ++ ['}']) _ ?side, ← phToken]
      · exact ih hrest hnmrest
      · intro c hc
        rcases List.mem_append.mp hc with h | h
        · exact (hsg c h).1
        · simp at h
          rw [h]
          decide

/-- A placeholder present in the segment list makes its token occur in the
flattened body. -/
theorem token_in_flatten (m : List Char) :
    ∀ segs : List TemplateSeg, TemplateSeg.ph m ∈ segs →
      containsSub (phToken m) (flattenSegs segs) = true := by
  intro segs
  induction segs with
  | nil => intro h; simp at h
  | cons sg rest ih =>
    intro hmem
    rcases List.mem_cons.mp hmem with he | hr
    · have h1 : flattenSegs (sg :: rest) = phToken m ++ flattenSegs rest := by
        rw [← he]
        simp [flattenSegs, segText]
      rw [h1]
      have hpre : (phToken m).isPrefixOf (phToken m ++ flattenSegs rest) = true := by
        rw [List.isPrefixOf_iff_prefix]
        exact List.prefix_append _ _
      have hcons : phToken m ++ flattenSegs rest
          = '{' :: ((m ++ ['}']) ++ flattenSegs rest) := by
        rw [phToken]
        rfl
      rw [hcons]
      show ((phToken m).isPrefixOf ('{' :: ((m ++ ['}']) ++ flattenSegs rest))
          || containsSub (phToken m) ((m ++ ['}']) ++ flattenSegs rest)) = true
      rw [← hcons, hpre, Bool.true_or]
    · have h1 : flattenSegs (sg :: rest) = segText sg ++ flattenSegs rest := by
        simp [flattenSegs]
      rw [h1]
      exact containsSub_append_of_right _ (segText sg) _ (ih hr)

/-- One substitution pass preserves well-formedness when the value is
brace-free. -/
theorem map_substSeg_wf (name val : List Char) (hval : braceFree val)
    (segs : List TemplateSeg) (h : ∀ sg ∈ segs, SegWf sg) :
    ∀ sg ∈ segs.map (substSeg name val), SegWf sg := by
  intro sg hsg
  rcases List.mem_map.mp hsg with ⟨x, hx, hxe⟩
  have hxwf : SegWf x := h x hx
  cases x with
  | lit s => rw [← hxe]; exact hxwf
  | ph w =>
    rw [← hxe]
    simp only [substSeg]
    by_cases hw : w = name
    · rw [if_pos hw]; exact hval
    · rw [if_neg hw]; exact hxwf

/-- The rendering loop on the flattened body of a well-formed segment list
computes the segment-level substitution of all variables in order. -/
theorem renderBody_flatten (vars : List (List Char × List Char)) :
    (∀ vv ∈ vars, braceFree vv.1) → (∀ vv ∈ vars, braceFree vv.2) →
      ∀ segs : List TemplateSeg, (∀ sg ∈ segs, SegWf sg) →
        renderBody (flattenSegs segs) vars = flattenSegs (substAll vars segs) := by
  induction vars with
  | nil => intro _ _ segs _; simp [renderBody, substAll]
  | cons vv vs ih =>
    intro hnames hvals segs hwf
    have h1 : renderBody (flattenSegs segs) (vv :: vs)
        = renderBody (replaceAll (phToken vv.1) vv.2 (flattenSegs segs)) vs := rfl
    have h2 : substAll (vv :: vs) segs = substAll vs (segs.map (substSeg vv.1 vv.2)) := rfl
    rw [h1, h2, replaceAll_token_flatten vv.1 vv.2 (hnames vv (by simp)) segs hwf]
    exact ih (fun x hx => hnames x (by simp [hx])) (fun x hx => hvals x (by simp [hx]))
      _ (map_substSeg_wf vv.1 vv.2 (hvals vv (by simp)) segs hwf)

/-- A placeholder surviving the whole substitution chain was in the
original segment list and its name is none of the substituted variables. -/
theorem ph_mem_substAll (vars : List (List Char × List Char)) :
    ∀ (segs : List TemplateSeg) (w : List Char),
      TemplateSeg.ph w ∈ substAll vars segs →
      TemplateSeg.ph w ∈ segs ∧ ∀ vv ∈ vars, w ≠ vv.1 := by
  induction vars with
  | nil =>
    intro segs w h
    refine ⟨by simpa [substAll] using h, by simp⟩
  | cons vv vs ih =>
    intro segs w h
    have h2 : substAll (vv :: vs) segs = substAll vs (segs.map (substSeg vv.1 vv.2)) := rfl
    rw [h2] at h
    obtain ⟨hmem, hnotin⟩ := ih _ w h
    rcases List.mem_map.mp hmem with ⟨x, hx, hxe⟩
    cases x with
    | lit s => simp [substSeg] at hxe
    | ph u =>
      by_cases hu : u = vv.1
      · rw [substSeg, if_pos hu] at hxe
        exact absurd hxe (by simp)
      · rw [substSeg, if_neg hu] at hxe
        have huw : u = w := by
          injection hxe
        refine ⟨by rw [← huw]; exact hx, ?_⟩
        intro x hxmem
        rcases List.mem_cons.mp hxmem with he | hr
        · rw [he, ← huw]
          exact hu
        · exact hnotin x hr

/-- A placeholder whose name is substituted by no variable survives the
whole substitution chain. -/
theorem ph_mem_substAll_of_not_name (vars : List (List Char × List Char)) :
    ∀ (segs : List TemplateSeg) (m : List Char),
      TemplateSeg.ph m ∈ segs → (∀ vv ∈ vars, m ≠ vv.1) →
      TemplateSeg.ph m ∈ substAll vars segs := by
  induction vars with
  | nil => intro segs m h _; simpa [substAll] using h
  | cons vv vs ih =>
    intro segs m h hnm
    have h2 : substAll (vv :: vs) segs = substAll vs (segs.map (substSeg vv.1 vv.2)) := rfl
    rw [h2]
    refine ih _ m ?_ fun x hx => hnm x (by simp [hx])
    refine List.mem_map.mpr ⟨TemplateSeg.ph m, h, ?_⟩
    rw [substSeg, if_neg (hnm vv (by simp))]

/-- `substAll` preserves well-formedness when all values are brace-free. -/
theorem substAll_wf (vars : List (List Char × List Char)) :
    (∀ vv ∈ vars, braceFree vv.2) →
      ∀ segs : List TemplateSeg, (∀ sg ∈ segs, SegWf sg) →
        ∀ sg ∈ substAll vars segs, SegWf sg := by
  induction vars with
  | nil => intro _ segs h; simpa [substAll] using h
  | cons vv vs ih =>
    intro hvals segs hwf
    have h2 : substAll (vv :: vs) segs = substAll vs (segs.map (substSeg vv.1 vv.2)) := rfl
    rw [h2]
    exact ih (fun x hx => hvals x (by simp [hx])) _
      (map_substSeg_wf vv.1 vv.2 (hvals vv (by simp)) segs hwf)

/-- C7, amended: for a well-formed template body (an alternating list of
brace-free literal text and `{name}` placeholders) and brace-free variable
names and values, rendering substitutes each placeholder whose variable is
in the map and leaves the others literal, never raising: when every
placeholder's variable is present, the output contains no `{variable}`
token from the map's domain; when the body mentions a variable absent from
the map, that token stays literal in the output, no token from the map's
domain remains, and the message is non-empty.  (Without the
well-formedness restriction the property fails: iterated `str.replace` can
manufacture a new token of the map's domain, see the counterexample.) -/
theorem render_roundtrip (segs : List TemplateSeg) (vars : List (List Char × List Char))
    (hwf : ∀ sg ∈ segs, SegWf sg)
    (hnames : ∀ vv ∈ vars, braceFree vv.1)
    (hvals : ∀ vv ∈ vars, braceFree vv.2) :
    ((∀ w, TemplateSeg.ph w ∈ segs → ∃ vv ∈ vars, w = vv.1) →
      ∀ vv ∈ vars,
        containsSub (phToken vv.1) (renderBody (flattenSegs segs) vars) = false) ∧
    (∀ m, TemplateSeg.ph m ∈ segs → (∀ vv ∈ vars, m ≠ vv.1) →
      containsSub (phToken m) (renderBody (flattenSegs segs) vars) = true ∧
      (∀ vv ∈ vars,
        containsSub (phToken vv.1) (renderBody (flattenSegs segs) vars) = false) ∧
      renderBody (flattenSegs segs) vars ≠ []) := by
  have hrb : renderBody (flattenSegs segs) vars = flattenSegs (substAll vars segs) :=
    renderBody_flatten vars hnames hvals segs hwf
  have hwf' : ∀ sg ∈ substAll vars segs, SegWf sg := substAll_wf vars hvals segs hwf
  constructor
  · intro hcov vv hvv
    rw [hrb]
    refine no_token_in_flatten vv.1 (hnames vv hvv) _ hwf' ?_
    intro w hw
    obtain ⟨hmem, hnone⟩ := ph_mem_substAll vars _ w hw
    obtain ⟨uu, huu, hue⟩ := hcov w hmem
    exact absurd hue (hnone uu huu)
  · intro m hm hmn
    have hms : TemplateSeg.ph m ∈ substAll vars segs :=
      ph_mem_substAll_of_not_name vars segs m hm hmn
    have htok : containsSub (phToken m) (flattenSegs (substAll vars segs)) = true :=
      token_in_flatten m _ hms
    refine ⟨by rw [hrb]; exact htok, ?_, ?_⟩
    · intro vv hvv
      rw [hrb]
      refine no_token_in_flatten vv.1 (hnames vv hvv) _ hwf' ?_
      intro w hw
      obtain ⟨hmem, hnone⟩ := ph_mem_substAll vars _ w hw
      exact hnone vv hvv
    · intro hnil
      rw [hrb] at hnil
      rw [hnil] at htok
      simp [containsSub, phToken] at htok

/-- Witness for the amended C7: a well-formed one-placeholder template
rendered with its variable present leaves no `{location}` token. -/
theorem render_roundtrip_witness :
    (∀ sg ∈ [TemplateSeg.lit "Alert at ".toList, TemplateSeg.ph "location".toList],
      SegWf sg) ∧
    (∀ vv ∈ [("location".toList, "Berlin".toList)], braceFree vv.1) ∧
    (∀ vv ∈ [("location".toList, "Berlin".toList)], braceFree vv.2) ∧
    containsSub (phToken "location".toList)
      (renderBody
        (flattenSegs [TemplateSeg.lit "Alert at ".toList, TemplateSeg.ph "location".toList])
        [("location".toList, "Berlin".toList)]) = false := by
  refine ⟨by decide, by decide, by decide, ?_⟩
  refine (render_roundtrip
      [TemplateSeg.lit "Alert at ".toList, TemplateSeg.ph "location".toList]
      [("location".toList, "Berlin".toList)] (by decide) (by decide) (by decide)).1
    ?_ ("location".toList, "Berlin".toList) (by simp)
  intro w hw
  simp at hw
  exact ⟨("location".toList, "Berlin".toList), by simp, by simp [hw]⟩

/-- C7, counterexample: with the body `"{timestamp{trigger_type}}"` and the
exact variable map shape `_prepare_emergency_variables` builds (insertion
order `timestamp`, `trigger_type`, `location`, `coordinates`; an empty
`trigger_type` is reachable since it is a caller-supplied argument of
`send_emergency_message`), every variable of the map's domain is present,
yet the sequential `str.replace` loop produces the literal body
`"{timestamp}"` — a `{variable}` token of the map's domain — because
replacing `{trigger_type}` by the empty string glues `"{timestamp"` to
`"}"`.  This refutes the claim that rendering with all variables present
yields no `{variable}` token from the map's domain. -/
theorem render_leaves_domain_token_cx :
    renderBody "\x7btimestamp\x7btrigger_type\x7d\x7d".toList
      [("timestamp".toList, "2026-02-03 04:05:06".toList),
       ("trigger_type".toList, []),
       ("location".toList, "Location unknown".toList),
       ("coordinates".toList, "N/A".toList)]
      = "\x7btimestamp\x7d".toList ∧
    containsSub (phToken "timestamp".toList) "\x7btimestamp\x7d".toList = true ∧
    ([("timestamp".toList, "2026-02-03 04:05:06".toList),
      ("trigger_type".toList, ([] : List Char)),
      ("location".toList, "Location unknown".toList),
      ("coordinates".toList, "N/A".toList)].map Prod.fst)
      = ["timestamp".toList, "trigger_type".toList,
         "location".toList, "coordinates".toList] := by
  refine ⟨?_, by decide, by decide⟩
  simp [renderBody, replaceAll, phToken]
